import Mathlib

/-!
Verification of the offline synchronization subsystem of the MPX backend.

The definitions below are a shallow embedding of the four offline-queue
implementations in the repository:

* `DatabaseManager` in `backend/app/database.py` (SQLite `sync_queue` table,
  `queue_sync_operation`, `_process_sync_queue`, `_execute_sync_operation`,
  `cache_set` / `_offline_cache_set`);
* `OfflineAnalyticsDB` in `backend/app/api/analytics.py`
  (`get_unsynced_events`, `mark_events_synced`);
* `OfflineContentManager` / `SocialMediaService` in
  `backend/app/services/social_service.py` (`queue_for_publishing`,
  `process_offline_queue`);
* `OfflineManager` in `backend/app/utils.py` (`queue_action`, `process_queue`).

Timestamps are modelled as naturals, serialized JSON payloads as opaque
strings, and the I/O outcome of a fallible call (a raised exception) as an
explicit boolean or `Option`, as noted at each definition.
-/

namespace MPX

/-! ### Data model of the `sync_queue` table (database.py, `_setup_offline_database`)

The `status` column is `TEXT DEFAULT 'pending'`; the code writes only
`'pending'`, `'synced'` and `'failed'`.  The constructor `processing` is
included so that states in which the column was externally forced to a value
the engine never writes are expressible. -/

inductive SyncStatus
  | pending
  | processing
  | synced
  | failed
deriving DecidableEq, Repr

/-- The `data` column of `sync_queue` is opaque caller-serialized JSON.  The
caller may embed a priority in it; the engine never reads it.  The `blob`
field stands for the rest of the serialized record. -/
structure Payload where
  priority : Nat
  blob : String
deriving DecidableEq, Repr

/-- One row of the `sync_queue` table.  Columns as in the schema:
`id INTEGER PRIMARY KEY AUTOINCREMENT`, `table_name`, `operation`,
`record_id`, `data`, `created_at`, `retry_count INTEGER DEFAULT 0`,
`max_retries INTEGER DEFAULT 3`, `status TEXT DEFAULT 'pending'`. -/
structure SyncRow where
  id : Nat
  table_name : String
  operation : String
  record_id : String
  data : Payload
  created_at : Nat
  retry_count : Nat
  max_retries : Nat
  status : SyncStatus
deriving DecidableEq, Repr

/-- The persistent state of `DatabaseManager` that the sync queue touches:
the `sync_queue` rows, the next AUTOINCREMENT id, and the
`is_offline_mode` flag. -/
structure DBState where
  queue : List SyncRow
  nextId : Nat
  is_offline_mode : Bool
deriving DecidableEq, Repr

/-- State after `_setup_offline_database` on a fresh store: empty queue,
AUTOINCREMENT starts at 1, `is_offline_mode = False` (set in `__init__`). -/
def initState : DBState := { queue := [], nextId := 1, is_offline_mode := false }

/-- The `WHERE status = 'pending' AND retry_count < max_retries` filter of
`_process_sync_queue`. -/
def eligible (r : SyncRow) : Bool :=
  decide (r.status = SyncStatus.pending) && decide (r.retry_count < r.max_retries)

/-- The `ORDER BY created_at` comparison of `_process_sync_queue`'s SELECT. -/
def createdLE (a b : SyncRow) : Prop := a.created_at ≤ b.created_at

instance : DecidableRel createdLE := fun a b => Nat.decLe a.created_at b.created_at

instance : IsTotal SyncRow createdLE := ⟨fun a b => Nat.le_total a.created_at b.created_at⟩

instance : IsTrans SyncRow createdLE := ⟨fun _ _ _ h1 h2 => Nat.le_trans h1 h2⟩

/-- The batch fetched by `_process_sync_queue`:
`SELECT * FROM sync_queue WHERE status = 'pending' AND retry_count < max_retries
ORDER BY created_at` (a stable sort on `created_at`; there is no other sort key). -/
def loadReady (st : DBState) : List SyncRow :=
  List.insertionSort createdLE (st.queue.filter eligible)

/-- `UPDATE sync_queue ... WHERE id = ?`: apply `f` to every row whose `id`
matches (the primary key makes at most one row match in well-formed states). -/
def updateById (i : Nat) (f : SyncRow → SyncRow) (q : List SyncRow) : List SyncRow :=
  q.map fun cur => if cur.id = i then f cur else cur

/-- Effect of one loop iteration of `_process_sync_queue` on the row it
claimed, given whether `_execute_sync_operation` succeeded.  `snap` is the
row as fetched by the SELECT (the loop reads `row['retry_count']` and
`row['max_retries']` from that snapshot); `cur` is the stored row the
UPDATE statements hit.  On success: `SET status = 'synced'`.  On failure:
`SET retry_count = retry_count + 1`, and additionally `SET status = 'failed'`
when `row['retry_count'] + 1 >= row['max_retries']`. -/
def applyOutcome (ok : Bool) (snap cur : SyncRow) : SyncRow :=
  if ok then { cur with status := SyncStatus.synced }
  else
    let bumped := { cur with retry_count := cur.retry_count + 1 }
    if snap.retry_count + 1 ≥ snap.max_retries then { bumped with status := SyncStatus.failed }
    else bumped

/-- `DatabaseManager._process_sync_queue`.  If `is_offline_mode` it returns at
once.  Otherwise it fetches the eligible batch and, for each batch row in
order, runs `_execute_sync_operation` and issues the UPDATEs of
`applyOutcome`.  `ok r` abstracts whether `_execute_sync_operation`
succeeded on row `r` (in the code this is: whether a main-database session
could be opened; see `executeSyncOperation`). -/
def syncTick (ok : SyncRow → Bool) (st : DBState) : DBState :=
  if st.is_offline_mode then st
  else
    { st with
      queue := (loadReady st).foldl (fun q r => updateById r.id (applyOutcome (ok r) r) q) st.queue }

/-- A new `sync_queue` row as inserted by `queue_sync_operation`: column
defaults give `retry_count = 0`, `max_retries = 3`, `status = 'pending'`,
`created_at` equal to the insertion time `now`. -/
def newRow (tn op rid : String) (d : Payload) (now i : Nat) : SyncRow :=
  { id := i, table_name := tn, operation := op, record_id := rid, data := d,
    created_at := now, retry_count := 0, max_retries := 3, status := SyncStatus.pending }

/-- The INSERT of `queue_sync_operation` (id assigned by AUTOINCREMENT). -/
def enqueueRow (tn op rid : String) (d : Payload) (now : Nat) (st : DBState) : DBState :=
  { st with queue := st.queue ++ [newRow tn op rid d now st.nextId], nextId := st.nextId + 1 }

/-- `DatabaseManager.queue_sync_operation`.  `ioFail` models the INSERT
raising: the surrounding `except` logs the error and the function returns
`False` with nothing persisted.  On success it commits the row, then — when
`is_offline_mode` is false — immediately runs `_process_sync_queue`, and
returns `True`. -/
def queueSyncOperation (ioFail : Bool) (ok : SyncRow → Bool) (tn op rid : String)
    (d : Payload) (now : Nat) (st : DBState) : DBState × Bool :=
  if ioFail then (st, false)
  else
    let st1 := enqueueRow tn op rid d now st
    if st1.is_offline_mode then (st1, true) else (syncTick ok st1, true)

/-- `DatabaseManager._execute_sync_operation`, polymorphic in the state of the
main database.  It opens a main-database session (raising — `none` — when
that fails, e.g. in offline mode), then branches on the operation kind;
every branch, including the implicit fall-through, is `pass`, so the main
database is returned unchanged. -/
def executeSyncOperation {α : Type} (sessionOk : Bool) (op : SyncRow) (mainDb : α) : Option α :=
  if sessionOk then
    some (match op.operation with
      | "INSERT" => mainDb
      | "UPDATE" => mainDb
      | "DELETE" => mainDb
      | _ => mainDb)
  else none

/-- The main-database state threaded through one `_process_sync_queue` batch:
each iteration calls `_execute_sync_operation` on the snapshot row; a raise
(`none`) leaves the main database as it was. -/
def tickRemote {α : Type} (sessionOk : Bool) (batch : List SyncRow) (mainDb : α) : α :=
  batch.foldl
    (fun db r =>
      match executeSyncOperation sessionOk r db with
      | some db2 => db2
      | none => db)
    mainDb

/-- `DatabaseManager.cache_set` / `_offline_cache_set` state: whether
`async_redis_client` is configured, the remote cache contents, and the
`app_cache` table (`key PRIMARY KEY`, `value`, `expires_at`). -/
structure CacheState where
  redisConfigured : Bool
  remote : List (String × String)
  localStore : List (String × (String × Nat))
deriving DecidableEq, Repr

/-- `setex` on the remote cache: replace any entry for `k`. -/
def remoteSet (k v : String) (l : List (String × String)) : List (String × String) :=
  (l.filter fun p => !(decide (p.1 = k))) ++ [(k, v)]

/-- `INSERT OR REPLACE INTO app_cache (key, value, expires_at)`. -/
def localSet (k v : String) (exp : Nat) (l : List (String × (String × Nat))) :
    List (String × (String × Nat)) :=
  (l.filter fun p => !(decide (p.1 = k))) ++ [(k, (v, exp))]

/-- `DatabaseManager._offline_cache_set`: writes the local `app_cache` row
with `expires_at = now + ttl` and returns `True`; if the write raises
(`localOk = false`) the `except` returns `False` with nothing written. -/
def offlineCacheSet (localOk : Bool) (k v : String) (ttl now : Nat) (st : CacheState) :
    CacheState × Bool :=
  if localOk then ({ st with localStore := localSet k v (now + ttl) st.localStore }, true)
  else (st, false)

/-- `DatabaseManager.cache_set`.  When a remote client is configured it calls
`setex` on the remote cache only and returns `True`; if `setex` raises
(`redisOk = false`) the surrounding `except` logs and returns `False` —
the local store is not touched in either case.  Only when no remote client
is configured does it fall back to `_offline_cache_set`. -/
def cacheSet (redisOk localOk : Bool) (k v : String) (ttl now : Nat) (st : CacheState) :
    CacheState × Bool :=
  if st.redisConfigured then
    if redisOk then ({ st with remote := remoteSet k v st.remote }, true)
    else (st, false)
  else offlineCacheSet localOk k v ttl now st

/-! ### `OfflineAnalyticsDB` (analytics.py) -/

/-- A row of the `analytics_events` table (the columns the queue logic reads;
`timestamp` is stored as ISO text, ordered here as a natural). -/
structure AnEvent where
  id : Nat
  event_type : String
  user_id : String
  session_id : String
  timestamp : Nat
  synced : Bool
deriving DecidableEq, Repr

/-- The `ORDER BY timestamp ASC` comparison of `get_unsynced_events`. -/
def tsLE (a b : AnEvent) : Prop := a.timestamp ≤ b.timestamp

instance : DecidableRel tsLE := fun a b => Nat.decLe a.timestamp b.timestamp

instance : IsTotal AnEvent tsLE := ⟨fun a b => Nat.le_total a.timestamp b.timestamp⟩

instance : IsTrans AnEvent tsLE := ⟨fun _ _ _ h1 h2 => Nat.le_trans h1 h2⟩

/-- `OfflineAnalyticsDB.get_unsynced_events`:
`SELECT * FROM analytics_events WHERE synced = FALSE ORDER BY timestamp ASC LIMIT ?`. -/
def getUnsyncedEvents (lim : Nat) (db : List AnEvent) : List AnEvent :=
  (List.insertionSort tsLE (db.filter fun e => !e.synced)).take lim

/-- `OfflineAnalyticsDB.mark_events_synced`:
`UPDATE analytics_events SET synced = TRUE WHERE id IN (...)`. -/
def markEventsSynced (ids : List Nat) (db : List AnEvent) : List AnEvent :=
  db.map fun e => if e.id ∈ ids then { e with synced := true } else e

/-! ### `OfflineManager` (utils.py) -/

/-- A row of the `offline_queue` table: `action`, `data` (serialized),
`attempts INTEGER DEFAULT 0`. -/
structure OMRow where
  action : String
  data : String
  attempts : Nat
deriving DecidableEq, Repr

/-- `OfflineManager` state: the in-memory `self.queue` deque of
`(action, data)` pairs and the persistent `offline_queue` table. -/
structure OMState where
  mem : List (String × String)
  dbq : List OMRow
deriving DecidableEq, Repr

/-- `OfflineManager.queue_action`.  It always appends to the in-memory deque
first; then it tries the INSERT.  `ioFail` models the INSERT raising: the
`except` clause only logs (`logger.error`) — the caller sees a normal
return in every case, which the `Option String` error component (always
`none`) makes explicit. -/
def queueAction (ioFail : Bool) (a d : String) (st : OMState) : OMState × Option String :=
  let st1 := { st with mem := st.mem ++ [(a, d)] }
  if ioFail then (st1, none)
  else ({ st1 with dbq := st1.dbq ++ [⟨a, d, 0⟩] }, none)

/-- `DELETE FROM offline_queue WHERE action = $1 AND data = $2`. -/
def deleteRows (a d : String) (l : List OMRow) : List OMRow :=
  l.filter fun row => !(decide (row.action = a) && decide (row.data = d))

/-- `UPDATE offline_queue SET attempts = attempts + 1 WHERE action = $1 AND data = $2`. -/
def bumpAttempts (a d : String) (l : List OMRow) : List OMRow :=
  l.map fun row =>
    if row.action = a ∧ row.data = d then { row with attempts := row.attempts + 1 } else row

/-- `OfflineManager.process_queue`, with explicit fuel counting loop
iterations.  The `while self.queue` loop pops the head, runs
`_execute_action`; on success it deletes the matching persisted rows; on
failure (or a raise) it re-appends the pair to the deque and increments the
persisted attempt counter — there is no check of `attempts` against any
bound.  `none` means the given number of iterations did not exhaust the
queue. -/
def processQueueFuel (exec : String → String → Bool) : Nat → OMState → Option OMState
  | _, ⟨[], dbq⟩ => some ⟨[], dbq⟩
  | 0, _ => none
  | fuel + 1, ⟨(a, d) :: rest, dbq⟩ =>
    if exec a d then processQueueFuel exec fuel ⟨rest, deleteRows a d dbq⟩
    else processQueueFuel exec fuel ⟨rest ++ [(a, d)], bumpAttempts a d dbq⟩

/-- The `while self.queue` loop of `process_queue` terminates on `st`. -/
def pqTerminates (exec : String → String → Bool) (st : OMState) : Prop :=
  ∃ fuel, (processQueueFuel exec fuel st).isSome = true

/-- `OfflineManager._execute_action` as shipped: the placeholder body is
`return True` for every action. -/
def executeAction (_a _d : String) : Bool :=
  true

/-! ### `OfflineContentManager` / `SocialMediaService.process_offline_queue`
(social_service.py) -/

/-- An entry of `post_queue.json` as written by `queue_for_publishing`:
`{"id": ..., "post": ..., "queued_at": ..., "retry_count": 0, "max_retries": 3}`.
The post dictionary is opaque serialized data. -/
structure QItem where
  id : String
  post : String
  queued_at : Nat
  retry_count : Nat
  max_retries : Nat
deriving DecidableEq, Repr

/-- The persisted `post_queue.json`: a map from `user_id` to that user's
queue, as an association list. -/
abbrev SocialFile := List (String × List QItem)

/-- Write `post_queue.json` with the given queue for `user` (the
`queue[user_id] = ...` assignment followed by `_save_queue`). -/
def saveQueue (user : String) (l : List QItem) (file : SocialFile) : SocialFile :=
  if (file.lookup user).isSome then file.map fun p => if p.1 = user then (user, l) else p
  else file ++ [(user, l)]

/-- `OfflineContentManager.queue_for_publishing`: loads the file, appends a
fresh item with `retry_count = 0`, `max_retries = 3` (no deduplication of
any kind), and saves. -/
def queueForPublishing (id : String) (now : Nat) (user : String) (post : String)
    (file : SocialFile) : SocialFile :=
  saveQueue user (((file.lookup user).getD []) ++ [⟨id, post, now, 0, 3⟩]) file

/-- Outcome of `publish_to_platforms` on one queued post, as observed by the
loop in `process_offline_queue`. -/
inductive POutcome
  | success
  | noSuccess
  | socialErr (msg : String)
  | otherErr (msg : String)
deriving DecidableEq, Repr

/-- Case-insensitive containment used by the handler
`"network" in str(e).lower() or "timeout" in str(e).lower()`. -/
def containsSub (needle hay : String) : Bool :=
  decide ((hay.splitOn needle).length > 1)

/-- Whether a generic exception message is treated as a network error. -/
def isNetworkMsg (m : String) : Bool :=
  containsSub "network" m.toLower || containsSub "timeout" m.toLower

/-- The local variable `updated_queue` of `process_offline_queue`, which the
source reads but never assigns: `none` means unbound.  Appending to it when
unbound raises `NameError` (`Except.error`). -/
def uqAppend : Option (List QItem) → QItem → Except Unit (Option (List QItem))
  | none, _ => Except.error ()
  | some l, it => Except.ok (some (l ++ [it]))

/-- In-flight state of the `for queue_item in user_queue` loop:
`updated_queue` plus the `processed` and `failed` counters. -/
structure LoopSt where
  uq : Option (List QItem)
  processed : Nat
  failed : Nat
deriving DecidableEq, Repr

/-- How the loop ends: it either runs off the end of the queue, or a
`NameError` raised inside one of its `except` clauses propagates out. -/
inductive LoopOut
  | finished (s : LoopSt)
  | nameErrorEscape (s : LoopSt)
deriving DecidableEq, Repr

/-- The body of the `for queue_item in user_queue` loop of
`process_offline_queue`, item by item.

* publish succeeded: `processed += 1`.
* publish returned without success (in the `try` body): `retry_count += 1`;
  if still under `max_retries` the code appends to `updated_queue` — the
  resulting `NameError` is caught by the loop's generic `except Exception`
  handler, whose message contains neither "network" nor "timeout", so
  `failed += 1` and the loop continues; otherwise `failed += 1` directly.
* `SocialServiceError`: handled in its `except` clause; under the retry
  bound the append's `NameError` is raised inside that clause and escapes
  the loop; at the bound, `failed += 1`.
* any other exception: network/timeout messages take the retry path (same
  escape), otherwise `failed += 1`. -/
def runLoop (publish : String → POutcome) : List QItem → LoopSt → LoopOut
  | [], s => LoopOut.finished s
  | it :: rest, s =>
    match publish it.post with
    | POutcome.success => runLoop publish rest { s with processed := s.processed + 1 }
    | POutcome.noSuccess =>
      if it.retry_count + 1 < it.max_retries then
        match uqAppend s.uq it with
        | Except.error _ => runLoop publish rest { s with failed := s.failed + 1 }
        | Except.ok uq2 => runLoop publish rest { s with uq := uq2 }
      else runLoop publish rest { s with failed := s.failed + 1 }
    | POutcome.socialErr _ =>
      if it.retry_count + 1 < it.max_retries then
        match uqAppend s.uq it with
        | Except.error _ => LoopOut.nameErrorEscape s
        | Except.ok uq2 => runLoop publish rest { s with uq := uq2 }
      else runLoop publish rest { s with failed := s.failed + 1 }
    | POutcome.otherErr m =>
      if isNetworkMsg m then
        if it.retry_count + 1 < it.max_retries then
          match uqAppend s.uq it with
          | Except.error _ => LoopOut.nameErrorEscape s
          | Except.ok uq2 => runLoop publish rest { s with uq := uq2 }
        else runLoop publish rest { s with failed := s.failed + 1 }
      else runLoop publish rest { s with failed := s.failed + 1 }

/-- The dictionary returned by `process_offline_queue`. -/
structure PQResult where
  processed : Nat
  failed : Nat
  remaining : Nat
  error : Option String
deriving DecidableEq, Repr

/-- Message of the `NameError` raised on any use of the unbound
`updated_queue`. -/
def nameErrorMsg : String := "NameError: name updated_queue is not defined"

/-- The outer `except Exception` handler's return value:
`{"processed": 0, "failed": 0, "remaining": 0, "error": str(e)}`. -/
def errorResult (e : String) : PQResult := { processed := 0, failed := 0, remaining := 0, error := some e }

/-- `SocialMediaService.process_offline_queue`.  It loads the queue for
`user`, runs the loop with `updated_queue` unbound (the source never
assigns it), then executes `queue[user_id] = updated_queue` —
a `NameError` when `updated_queue` is still unbound — and only past that
point would it save the file and report counts.  Any `NameError` reaching
the outer `try` yields the error dictionary, with the file unwritten. -/
def processOfflineQueue (publish : String → POutcome) (file : SocialFile) (user : String) :
    PQResult × SocialFile :=
  match runLoop publish ((file.lookup user).getD []) { uq := none, processed := 0, failed := 0 } with
  | LoopOut.nameErrorEscape _ => (errorResult nameErrorMsg, file)
  | LoopOut.finished s =>
    match s.uq with
    | none => (errorResult nameErrorMsg, file)
    | some l =>
      ({ processed := s.processed, failed := s.failed, remaining := l.length, error := none },
        saveQueue user l file)

/-! ### Engine transitions and reachability (database.py) -/

/-- One caller-visible operation of the database sync engine. -/
inductive StepFrom : DBState → DBState → Prop
  | enqueue (st : DBState) (ioFail : Bool) (ok : SyncRow → Bool) (tn op rid : String)
      (d : Payload) (now : Nat) :
      StepFrom st (queueSyncOperation ioFail ok tn op rid d now st).1
  | tick (st : DBState) (ok : SyncRow → Bool) : StepFrom st (syncTick ok st)
  | goOffline (st : DBState) : StepFrom st { st with is_offline_mode := true }

/-- Zero or more engine operations. -/
inductive ReachFrom : DBState → DBState → Prop
  | refl (st : DBState) : ReachFrom st st
  | step {st st1 st2 : DBState} (h : ReachFrom st st1) (hs : StepFrom st1 st2) :
      ReachFrom st st2

/-- States reachable from a fresh store (`initialize` may or may not have
enabled offline mode). -/
inductive Reach : DBState → Prop
  | init (b : Bool) : Reach { queue := [], nextId := 1, is_offline_mode := b }
  | step {st st2 : DBState} (h : Reach st) (hs : StepFrom st st2) : Reach st2

/-- Well-formedness provided by the schema: primary-key ids are distinct and
below the AUTOINCREMENT counter. -/
def Inv (st : DBState) : Prop :=
  (st.queue.map SyncRow.id).Nodup ∧ ∀ r ∈ st.queue, r.id < st.nextId

/-- A status the engine treats as final. -/
def terminalStatus (s : SyncStatus) : Prop := s = SyncStatus.synced ∨ s = SyncStatus.failed

/-- Number of successful `_execute_sync_operation` invocations a
`_process_sync_queue` call performs on state `st`: one per batch row when
dispatch runs and sessions open, none otherwise. -/
def successfulApplies (sessionOk : Bool) (st : DBState) : Nat :=
  if st.is_offline_mode || !sessionOk then 0 else (loadReady st).length

/-- The ordering the specification claims for a dispatched batch:
priority descending, ties by creation time ascending. -/
def priorityBatchOrdered (l : List SyncRow) : Prop :=
  l.Pairwise fun a b =>
    b.data.priority < a.data.priority ∨
      (a.data.priority = b.data.priority ∧ a.created_at ≤ b.created_at)

/-- The row a single `_process_sync_queue` iteration would leave for `x` when
`x` itself is the claimed batch row (snapshot and stored row coincide). -/
def tickRowResult (ok : SyncRow → Bool) (x : SyncRow) : SyncRow :=
  if eligible x then applyOutcome (ok x) x x else x

/-- The cumulative effect on one stored row `x` of the sequence of
`UPDATE ... WHERE id = ?` statements issued for a batch. -/
def rowFold (ok : SyncRow → Bool) (batch : List SyncRow) (x : SyncRow) : SyncRow :=
  batch.foldl (fun cur r => if cur.id = r.id then applyOutcome (ok r) r cur else cur) x

/-! ### Helper lemmas: the batch fold acts row-wise -/

theorem applyOutcome_id (ok : Bool) (snap cur : SyncRow) :
    (applyOutcome ok snap cur).id = cur.id := by
  unfold applyOutcome
  split
  · rfl
  · dsimp only
    split <;> rfl

theorem applyOutcome_status (ok : Bool) (snap cur : SyncRow) :
    (applyOutcome ok snap cur).status = SyncStatus.synced ∨
      (applyOutcome ok snap cur).status = SyncStatus.failed ∨
      (applyOutcome ok snap cur).status = cur.status := by
  unfold applyOutcome
  split
  · exact Or.inl rfl
  · dsimp only
    split
    · exact Or.inr (Or.inl rfl)
    · exact Or.inr (Or.inr rfl)

theorem tickRowResult_id (ok : SyncRow → Bool) (x : SyncRow) :
    (tickRowResult ok x).id = x.id := by
  unfold tickRowResult
  split
  · exact applyOutcome_id ..
  · rfl

theorem tickFold_eq_map (ok : SyncRow → Bool) (batch q : List SyncRow) :
    batch.foldl (fun q r => updateById r.id (applyOutcome (ok r) r) q) q
      = q.map (rowFold ok batch) := by
  induction batch generalizing q with
  | nil => exact (List.map_id' q).symm
  | cons r bt ih =>
    rw [List.foldl_cons, ih]
    simp only [updateById, List.map_map]
    rfl

theorem rowFold_eq_self (ok : SyncRow → Bool) (batch : List SyncRow) (x : SyncRow)
    (h : ∀ r ∈ batch, x.id ≠ r.id) : rowFold ok batch x = x := by
  induction batch with
  | nil => rfl
  | cons r bt ih =>
    have hne : x.id ≠ r.id := h r (List.mem_cons_self r bt)
    simp only [rowFold, List.foldl_cons, if_neg hne]
    exact ih fun r2 hr2 => h r2 (List.mem_cons_of_mem r hr2)

theorem rowFold_single (ok : SyncRow → Bool) (b1 b2 : List SyncRow) (x : SyncRow)
    (h1 : ∀ r ∈ b1, x.id ≠ r.id) (h2 : ∀ r ∈ b2, x.id ≠ r.id) :
    rowFold ok (b1 ++ x :: b2) x = applyOutcome (ok x) x x := by
  have hpre : rowFold ok (b1 ++ x :: b2) x = rowFold ok (x :: b2) (rowFold ok b1 x) := by
    simp [rowFold, List.foldl_append]
  rw [hpre, rowFold_eq_self ok b1 x h1]
  simp only [rowFold, List.foldl_cons, if_pos rfl]
  have h2' : ∀ r ∈ b2, (applyOutcome (ok x) x x).id ≠ r.id := by
    intro r hr
    rw [applyOutcome_id]
    exact h2 r hr
  exact rowFold_eq_self ok b2 (applyOutcome (ok x) x x) h2'

theorem nodup_split_ne {l1 l2 : List SyncRow} {x : SyncRow}
    (h : (((l1 ++ x :: l2).map SyncRow.id)).Nodup) :
    (∀ r ∈ l1, x.id ≠ r.id) ∧ ∀ r ∈ l2, x.id ≠ r.id := by
  rw [List.map_append, List.map_cons, List.nodup_middle, List.nodup_cons] at h
  have hx : x.id ∉ l1.map SyncRow.id ++ l2.map SyncRow.id := h.1
  constructor
  · intro r hr heq
    exact hx (List.mem_append_left _ (heq ▸ List.mem_map_of_mem SyncRow.id hr))
  · intro r hr heq
    exact hx (List.mem_append_right _ (heq ▸ List.mem_map_of_mem SyncRow.id hr))

theorem loadReady_mem {st : DBState} {r : SyncRow} :
    r ∈ loadReady st ↔ r ∈ st.queue ∧ eligible r = true := by
  unfold loadReady
  rw [List.mem_insertionSort, List.mem_filter]

theorem loadReady_ids_nodup {st : DBState} (hnd : (st.queue.map SyncRow.id).Nodup) :
    ((loadReady st).map SyncRow.id).Nodup := by
  have hperm :
      List.Perm ((loadReady st).map SyncRow.id) ((st.queue.filter eligible).map SyncRow.id) :=
    (List.perm_insertionSort createdLE (st.queue.filter eligible)).map SyncRow.id
  have hsub :
      List.Sublist ((st.queue.filter eligible).map SyncRow.id) (st.queue.map SyncRow.id) :=
    (List.filter_sublist st.queue).map SyncRow.id
  exact hperm.nodup_iff.mpr (List.Nodup.sublist hsub hnd)

/-- With distinct primary keys, one `_process_sync_queue` pass rewrites each
stored row independently: eligible rows receive the outcome of their own
attempt, all other rows are untouched. -/
theorem syncTick_queue_eq (ok : SyncRow → Bool) (st : DBState)
    (hoff : st.is_offline_mode = false) (hnd : (st.queue.map SyncRow.id).Nodup) :
    (syncTick ok st).queue = st.queue.map (tickRowResult ok) := by
  have hinj := List.inj_on_of_nodup_map hnd
  unfold syncTick
  rw [hoff]
  simp only [Bool.false_eq_true, if_false]
  rw [tickFold_eq_map]
  apply List.map_congr_left
  intro x hx
  by_cases helig : eligible x = true
  · have hxb : x ∈ loadReady st := loadReady_mem.mpr ⟨hx, helig⟩
    obtain ⟨b1, b2, hsplit⟩ := List.append_of_mem hxb
    have hbnd : ((loadReady st).map SyncRow.id).Nodup := loadReady_ids_nodup hnd
    rw [hsplit] at hbnd
    obtain ⟨h1, h2⟩ := nodup_split_ne hbnd
    rw [hsplit, rowFold_single ok b1 b2 x h1 h2, tickRowResult, if_pos helig]
  · have hnone : ∀ r ∈ loadReady st, x.id ≠ r.id := by
      intro r hr heq
      obtain ⟨hrq, hrel⟩ := loadReady_mem.mp hr
      exact helig (hinj hrq hx heq.symm ▸ hrel)
    rw [rowFold_eq_self ok (loadReady st) x hnone, tickRowResult,
      if_neg (by simp [helig])]

/-! ### Invariant preservation over engine operations -/

theorem syncTick_nextId (ok : SyncRow → Bool) (st : DBState) :
    (syncTick ok st).nextId = st.nextId := by
  unfold syncTick
  split <;> rfl

theorem syncTick_offline_flag (ok : SyncRow → Bool) (st : DBState) :
    (syncTick ok st).is_offline_mode = st.is_offline_mode := by
  unfold syncTick
  split <;> rfl

theorem syncTick_of_offline (ok : SyncRow → Bool) (st : DBState)
    (hoff : st.is_offline_mode = true) : syncTick ok st = st := by
  unfold syncTick
  rw [hoff]
  simp

theorem syncTick_ids (ok : SyncRow → Bool) (st : DBState)
    (hnd : (st.queue.map SyncRow.id).Nodup) :
    (syncTick ok st).queue.map SyncRow.id = st.queue.map SyncRow.id := by
  by_cases hoff : st.is_offline_mode = true
  · rw [syncTick_of_offline ok st hoff]
  · rw [Bool.not_eq_true] at hoff
    rw [syncTick_queue_eq ok st hoff hnd, List.map_map]
    apply List.map_congr_left
    intro x _
    exact tickRowResult_id ok x

theorem enqueueRow_ids (tn op rid : String) (d : Payload) (now : Nat) (st : DBState) :
    (enqueueRow tn op rid d now st).queue.map SyncRow.id
      = st.queue.map SyncRow.id ++ [st.nextId] := by
  simp [enqueueRow, newRow]

theorem inv_enqueueRow {st : DBState} (h : Inv st) {tn op rid : String} {d : Payload}
    {now : Nat} : Inv (enqueueRow tn op rid d now st) := by
  obtain ⟨hnd, hbound⟩ := h
  constructor
  · rw [enqueueRow_ids]
    have hnotin : st.nextId ∉ st.queue.map SyncRow.id := by
      intro hin
      obtain ⟨r, hr, hid⟩ := List.mem_map.mp hin
      exact absurd hid (Nat.ne_of_lt (hbound r hr))
    simp [List.nodup_append, hnd, hnotin]
  · intro r hr
    rcases List.mem_append.mp hr with h1 | h2
    · exact Nat.lt_trans (hbound r h1) (Nat.lt_succ_self _)
    · rw [List.mem_singleton] at h2
      subst h2
      exact Nat.lt_succ_self _

theorem inv_tick {st : DBState} (h : Inv st) (ok : SyncRow → Bool) :
    Inv (syncTick ok st) := by
  obtain ⟨hnd, hbound⟩ := h
  constructor
  · rw [syncTick_ids ok st hnd]
    exact hnd
  · intro r hr
    rw [syncTick_nextId]
    by_cases hoff : st.is_offline_mode = true
    · rw [syncTick_of_offline ok st hoff] at hr
      exact hbound r hr
    · rw [Bool.not_eq_true] at hoff
      rw [syncTick_queue_eq ok st hoff hnd] at hr
      obtain ⟨x, hx, hxr⟩ := List.mem_map.mp hr
      rw [← hxr, tickRowResult_id]
      exact hbound x hx

/-- The three ways `queue_sync_operation` can leave the store: INSERT failed
(state untouched), INSERT committed in offline mode, or INSERT committed
followed by the immediate `_process_sync_queue` run. -/
theorem queueSyncOperation_cases (ioFail : Bool) (ok : SyncRow → Bool) (tn op rid : String)
    (d : Payload) (now : Nat) (st : DBState) :
    (queueSyncOperation ioFail ok tn op rid d now st).1 = st ∨
      (queueSyncOperation ioFail ok tn op rid d now st).1 = enqueueRow tn op rid d now st ∨
      (queueSyncOperation ioFail ok tn op rid d now st).1
        = syncTick ok (enqueueRow tn op rid d now st) := by
  unfold queueSyncOperation
  split
  · exact Or.inl rfl
  · dsimp only
    split
    · exact Or.inr (Or.inl rfl)
    · exact Or.inr (Or.inr rfl)

theorem inv_step {st st2 : DBState} (h : Inv st) (hs : StepFrom st st2) : Inv st2 := by
  cases hs with
  | enqueue ioFail ok tn op rid d now =>
    rcases queueSyncOperation_cases ioFail ok tn op rid d now st with hc | hc | hc <;> rw [hc]
    · exact h
    · exact inv_enqueueRow h
    · exact inv_tick (inv_enqueueRow h) ok
  | tick ok => exact inv_tick h ok
  | goOffline => exact h

theorem reachfrom_inv {st st2 : DBState} (h : Inv st) (hr : ReachFrom st st2) : Inv st2 := by
  induction hr with
  | refl => exact h
  | step hsteps hs ih => exact inv_step ih hs

/-! ### Rows in a terminal status are never selected nor mutated again -/

theorem eligible_false_of_terminal {r : SyncRow} (h : terminalStatus r.status) :
    eligible r = false := by
  rcases h with h | h <;> simp [eligible, h]

theorem tick_keeps_ineligible {st : DBState} (hnd : (st.queue.map SyncRow.id).Nodup)
    {r : SyncRow} (hr : r ∈ st.queue) (helig : eligible r = false) (ok : SyncRow → Bool) :
    r ∈ (syncTick ok st).queue := by
  by_cases hoff : st.is_offline_mode = true
  · rw [syncTick_of_offline ok st hoff]
    exact hr
  · rw [Bool.not_eq_true] at hoff
    rw [syncTick_queue_eq ok st hoff hnd]
    have himg : tickRowResult ok r = r := by
      rw [tickRowResult, if_neg (by simp [helig])]
    exact himg ▸ List.mem_map_of_mem (tickRowResult ok) hr

theorem step_keeps_terminal {st st2 : DBState} (hinv : Inv st) (hs : StepFrom st st2)
    {r : SyncRow} (hr : r ∈ st.queue) (hterm : terminalStatus r.status) : r ∈ st2.queue := by
  cases hs with
  | enqueue ioFail ok tn op rid d now =>
    have hr1 : r ∈ (enqueueRow tn op rid d now st).queue := List.mem_append_left _ hr
    rcases queueSyncOperation_cases ioFail ok tn op rid d now st with hc | hc | hc <;> rw [hc]
    · exact hr
    · exact hr1
    · exact tick_keeps_ineligible (inv_enqueueRow hinv).1 hr1
        (eligible_false_of_terminal hterm) ok
  | tick ok =>
    exact tick_keeps_ineligible hinv.1 hr (eligible_false_of_terminal hterm) ok
  | goOffline => exact hr

/-! ### The engine never writes the `processing` status -/

def NoProc (st : DBState) : Prop := ∀ r ∈ st.queue, r.status ≠ SyncStatus.processing

theorem noproc_enqueueRow {st : DBState} (h : NoProc st) {tn op rid : String} {d : Payload}
    {now : Nat} : NoProc (enqueueRow tn op rid d now st) := by
  intro r hr
  rcases List.mem_append.mp hr with h1 | h2
  · exact h r h1
  · rw [List.mem_singleton] at h2
    subst h2
    intro hc
    simp [newRow] at hc

theorem noproc_tick {st : DBState} (hnd : (st.queue.map SyncRow.id).Nodup)
    (h : NoProc st) (ok : SyncRow → Bool) : NoProc (syncTick ok st) := by
  by_cases hoff : st.is_offline_mode = true
  · rw [syncTick_of_offline ok st hoff]
    exact h
  · rw [Bool.not_eq_true] at hoff
    intro r2 hr2
    rw [syncTick_queue_eq ok st hoff hnd] at hr2
    obtain ⟨x, hx, hxr⟩ := List.mem_map.mp hr2
    rw [← hxr]
    unfold tickRowResult
    split
    · rcases applyOutcome_status (ok x) x x with hst | hst | hst <;> rw [hst]
      · intro hc; cases hc
      · intro hc; cases hc
      · exact h x hx
    · exact h x hx

theorem noproc_step {st st2 : DBState} (hinv : Inv st) (h : NoProc st)
    (hs : StepFrom st st2) : NoProc st2 := by
  cases hs with
  | enqueue ioFail ok tn op rid d now =>
    rcases queueSyncOperation_cases ioFail ok tn op rid d now st with hc | hc | hc <;> rw [hc]
    · exact h
    · exact noproc_enqueueRow h
    · exact noproc_tick (inv_enqueueRow hinv).1 (noproc_enqueueRow h) ok
  | tick ok => exact noproc_tick hinv.1 h ok
  | goOffline => exact h

theorem reach_wf {st : DBState} (h : Reach st) : Inv st ∧ NoProc st := by
  induction h with
  | init b =>
    refine ⟨⟨List.nodup_nil, ?_⟩, ?_⟩ <;> intro r hr <;> cases hr
  | step hreach hs ih => exact ⟨inv_step ih.1 hs, noproc_step ih.1 ih.2 hs⟩

/-! ### `_execute_sync_operation` is a no-op -/

theorem exec_true_noop (α : Type) (r : SyncRow) (m : α) :
    executeSyncOperation true r m = some m := by
  unfold executeSyncOperation
  simp only [if_true]
  congr 1
  split <;> rfl

theorem tickRemote_id (α : Type) (sessionOk : Bool) (batch : List SyncRow) (m : α) :
    tickRemote sessionOk batch m = m := by
  induction batch generalizing m with
  | nil => rfl
  | cons r bt ih =>
    cases sessionOk with
    | true =>
      show tickRemote true bt
        (match executeSyncOperation true r m with | some db2 => db2 | none => m) = m
      rw [exec_true_noop]
      exact ih m
    | false =>
      show tickRemote false bt
        (match executeSyncOperation false r m with | some db2 => db2 | none => m) = m
      exact ih m

/-! ### Association-list bookkeeping for `post_queue.json` -/

theorem lookup_map_update (user : String) (l : List QItem) :
    ∀ file : SocialFile, (file.lookup user).isSome = true →
      (file.map fun p => if p.1 = user then (user, l) else p).lookup user = some l := by
  intro file
  induction file with
  | nil => intro h; simp [List.lookup] at h
  | cons p rest ih =>
    intro h
    obtain ⟨k, v⟩ := p
    rw [List.map_cons]
    by_cases hk : k = user
    · have hhead : (if ((k, v) : String × List QItem).1 = user then (user, l) else (k, v))
          = (user, l) := if_pos hk
      rw [hhead]
      simp [List.lookup]
    · have hb : (user == k) = false := beq_eq_false_iff_ne.mpr fun hh => hk hh.symm
      rw [if_neg hk]
      simp only [List.lookup, hb] at h ⊢
      exact ih h

theorem lookup_append_new (user : String) (l : List QItem) :
    ∀ file : SocialFile, (file.lookup user).isSome = false →
      (file ++ [(user, l)]).lookup user = some l := by
  intro file
  induction file with
  | nil => intro h; simp [List.lookup]
  | cons p rest ih =>
    intro h
    obtain ⟨k, v⟩ := p
    by_cases hk : (user == k) = true
    · simp [List.lookup, hk] at h
    · have hb : (user == k) = false := by simpa using hk
      simp only [List.cons_append, List.lookup, hb] at h ⊢
      exact ih h

theorem saveQueue_lookup (user : String) (l : List QItem) (file : SocialFile) :
    (saveQueue user l file).lookup user = some l := by
  unfold saveQueue
  cases hcond : (file.lookup user).isSome with
  | true =>
    rw [if_pos rfl]
    exact lookup_map_update user l file hcond
  | false =>
    rw [if_neg (by decide)]
    exact lookup_append_new user l file hcond

/-! ### The loop of `process_offline_queue` never binds `updated_queue` -/

theorem runLoop_uq_none (publish : String → POutcome) :
    ∀ (items : List QItem) (s : LoopSt), s.uq = none →
      ∀ s2, runLoop publish items s = LoopOut.finished s2 → s2.uq = none := by
  intro items
  induction items with
  | nil =>
    intro s hs s2 h
    cases h
    exact hs
  | cons it rest ih =>
    intro s hs s2 h
    simp only [runLoop] at h
    cases hp : publish it.post with
    | success =>
      simp only [hp] at h
      exact ih { s with processed := s.processed + 1 } hs s2 h
    | noSuccess =>
      simp only [hp] at h
      rw [hs] at h
      simp only [uqAppend] at h
      split at h
      · exact ih _ rfl s2 h
      · exact ih _ rfl s2 h
    | socialErr msg =>
      simp only [hp] at h
      rw [hs] at h
      simp only [uqAppend] at h
      split at h
      · cases h
      · exact ih _ rfl s2 h
    | otherErr msg =>
      simp only [hp] at h
      rw [hs] at h
      simp only [uqAppend] at h
      split at h
      · split at h
        · cases h
        · exact ih _ rfl s2 h
      · exact ih _ rfl s2 h

/-! ### `process_queue` termination behavior -/

theorem drain_true_exec : ∀ (mem : List (String × String)) (dbq : List OMRow),
    ∃ dbq2 : List OMRow,
      processQueueFuel executeAction mem.length ⟨mem, dbq⟩ = some ⟨[], dbq2⟩ := by
  intro mem
  induction mem with
  | nil => intro dbq; exact ⟨dbq, rfl⟩
  | cons ad rest ih =>
    intro dbq
    obtain ⟨a, d⟩ := ad
    have hstep : processQueueFuel executeAction ((a, d) :: rest).length ⟨(a, d) :: rest, dbq⟩
        = processQueueFuel executeAction rest.length ⟨rest, deleteRows a d dbq⟩ := by
      simp [processQueueFuel, executeAction]
    rw [hstep]
    exact ih (deleteRows a d dbq)

theorem fail_exec_stuck (a d : String) : ∀ (fuel : Nat) (dbq : List OMRow),
    processQueueFuel (fun _ _ => false) fuel ⟨[(a, d)], dbq⟩ = none := by
  intro fuel
  induction fuel with
  | zero => intro dbq; rfl
  | succ n ih =>
    intro dbq
    have hstep : processQueueFuel (fun _ _ => false) (n + 1) ⟨[(a, d)], dbq⟩
        = processQueueFuel (fun _ _ => false) n ⟨[(a, d)], bumpAttempts a d dbq⟩ := by
      simp [processQueueFuel]
    rw [hstep]
    exact ih (bumpAttempts a d dbq)

/-! ### `mark_events_synced` on an already-synced event -/

theorem anEvent_set_synced_self {e : AnEvent} (hs : e.synced = true) :
    { e with synced := true } = e := by
  cases e
  simp only at hs
  rw [hs]

/-! ## Claim theorems -/

/-! ### C1 -/

def c1Item : QItem :=
  { id := "q1", post := "p1", queued_at := 0, retry_count := 2, max_retries := 3 }

def c1File : SocialFile := [("u1", [c1Item])]

/-- C1 (code bug).  The retry-bound claim holds for `_process_sync_queue`
(see the invariants proved above), but it fails for
`SocialMediaService.process_offline_queue`: on a queue holding an item at
`retry_count = 2` of `max_retries = 3` whose publish attempt fails — the
attempt that consumes the last unit of budget — the call ends in the
`NameError` on the never-assigned `updated_queue`, returns the outer
handler's error dictionary, and leaves the persisted queue file byte-for-byte
unchanged: the item is never marked failed nor removed, so no transition to
the terminal failed state happens when the bound is reached. -/
theorem c1_social_failed_transition_never_persisted :
    c1Item.retry_count + 1 = c1Item.max_retries ∧
      processOfflineQueue (fun _ => POutcome.noSuccess) c1File "u1"
        = (errorResult nameErrorMsg, c1File) ∧
      ((processOfflineQueue (fun _ => POutcome.noSuccess) c1File "u1").2.lookup "u1")
        = some [c1Item] := by
  refine ⟨rfl, rfl, rfl⟩

/-! ### C2 -/

def c2Low : SyncRow :=
  { id := 1, table_name := "offline_content", operation := "INSERT", record_id := "a",
    data := { priority := 1, blob := "low" }, created_at := 0, retry_count := 0,
    max_retries := 3, status := SyncStatus.pending }

def c2High : SyncRow :=
  { id := 2, table_name := "offline_content", operation := "INSERT", record_id := "b",
    data := { priority := 5, blob := "high" }, created_at := 1, retry_count := 0,
    max_retries := 3, status := SyncStatus.pending }

def c2St : DBState := { queue := [c2Low, c2High], nextId := 3, is_offline_mode := false }

/-- C2 counterexample.  Two eligible entries in the same domain
(`offline_content`), one carrying priority 1 (created first) and one
carrying priority 5 (created second): the loaded batch is ordered purely by
`created_at`, so the priority-5 entry is attempted second and the batch is
not ordered by priority descending — the schema has no priority column and
the dispatcher never reads a priority. -/
theorem c2_priority_ignored_cex :
    loadReady c2St = [c2Low, c2High] ∧ c2Low.data.priority = 1 ∧ c2High.data.priority = 5 ∧
      ¬ priorityBatchOrdered (loadReady c2St) := by
  refine ⟨rfl, rfl, rfl, ?_⟩
  intro h
  rw [show loadReady c2St = [c2Low, c2High] from rfl] at h
  have hrel := (List.pairwise_cons.mp h).1 c2High (List.mem_singleton_self _)
  rcases hrel with hlt | ⟨heq, _⟩
  · exact absurd hlt (by decide)
  · exact absurd heq (by decide)

/-- C2 amended.  Every batch the dispatcher loads is ordered by creation
time ascending only: `_process_sync_queue` sorts by `created_at` and
`get_unsynced_events` sorts by `timestamp` — neither consults a priority,
so a later-created entry is attempted later regardless of any priority
carried in its payload. -/
theorem c2_created_at_order :
    (∀ st : DBState, List.Sorted createdLE (loadReady st)) ∧
      ∀ (lim : Nat) (db : List AnEvent), List.Sorted tsLE (getUnsyncedEvents lim db) := by
  constructor
  · intro st
    exact List.sorted_insertionSort createdLE (st.queue.filter eligible)
  · intro lim db
    exact List.Pairwise.sublist (List.take_sublist lim _)
      (List.sorted_insertionSort tsLE (db.filter fun e => !e.synced))

/-! ### C3 -/

/-- C3 amended.  In every reachable state of the sync queue no entry has the
`processing` status, because no engine operation ever writes it: the schema
statuses actually written are `pending`, `synced` and `failed`.  (There is,
however, no startup recovery operation — see the counterexample.) -/
theorem c3_reachable_no_processing :
    ∀ st : DBState, Reach st → ∀ r ∈ st.queue, r.status ≠ SyncStatus.processing :=
  fun _ h => (reach_wf h).2

def c3StuckRow : SyncRow :=
  { id := 1, table_name := "offline_users", operation := "UPDATE", record_id := "u1",
    data := { priority := 0, blob := "x" }, created_at := 0, retry_count := 0,
    max_retries := 3, status := SyncStatus.processing }

def c3StuckState : DBState := { queue := [c3StuckRow], nextId := 2, is_offline_mode := false }

/-- C3 counterexample.  An entry externally forced into the `processing`
status is not reset to `pending` by anything: startup
(`_setup_offline_database`) only issues `CREATE TABLE IF NOT EXISTS`, and a
dispatch pass selects only `status = 'pending'` rows, so after a full
`_process_sync_queue` run the entry is still `processing` — the claimed
startup recovery operation does not exist. -/
theorem c3_forced_processing_stuck_cex :
    (syncTick (fun _ => true) c3StuckState).queue = [c3StuckRow] ∧
      c3StuckRow.status = SyncStatus.processing ∧ c3StuckRow.status ≠ SyncStatus.pending := by
  exact ⟨rfl, rfl, by decide⟩

def c3WitState : DBState :=
  (queueSyncOperation false (fun _ => true) "offline_users" "INSERT" "u1"
    { priority := 0, blob := "x" } 0 initState).1

/-- C3 witness: the state reached from a fresh store by one online enqueue
contains its (synced) row with a status other than `processing`. -/
theorem c3_reachable_no_processing_witness :
    ({ newRow "offline_users" "INSERT" "u1" { priority := 0, blob := "x" } 0 1 with
        status := SyncStatus.synced }).status ≠ SyncStatus.processing :=
  c3_reachable_no_processing c3WitState
    (Reach.step (Reach.init false)
      (StepFrom.enqueue initState false (fun _ => true) "offline_users" "INSERT" "u1"
        { priority := 0, blob := "x" } 0))
    _ (by decide)

/-! ### C4 -/

/-- C4 (confirmed).  `synced` and `failed` are terminal: a sync-queue row in
a terminal status survives, with all its fields unchanged, every later
sequence of engine operations (enqueue, dispatch tick, offline toggle) —
such rows are never selected (`status = 'pending'` filter) and never hit by
an UPDATE.  Likewise `mark_events_synced` leaves an already-synced analytics
event exactly as it is. -/
theorem c4_terminal_states_immutable :
    (∀ st st2 : DBState, Inv st → ReachFrom st st2 →
      ∀ r ∈ st.queue, terminalStatus r.status → r ∈ st2.queue) ∧
      ∀ (ids : List Nat) (db : List AnEvent) (e : AnEvent),
        e ∈ db → e.synced = true → e ∈ markEventsSynced ids db := by
  constructor
  · intro st st2 hinv hreach
    induction hreach with
    | refl => exact fun r hr _ => hr
    | step hsteps hs ih =>
      intro r hr ht
      exact step_keeps_terminal (reachfrom_inv hinv hsteps) hs (ih r hr ht) ht
  · intro ids db e he hsy
    unfold markEventsSynced
    have himg : (fun e2 : AnEvent => if e2.id ∈ ids then { e2 with synced := true } else e2) e
        = e := by
      dsimp only
      split
      · exact anEvent_set_synced_self hsy
      · rfl
    exact himg ▸ List.mem_map_of_mem _ he

def c4Row : SyncRow :=
  { id := 1, table_name := "offline_content", operation := "DELETE", record_id := "c1",
    data := { priority := 0, blob := "x" }, created_at := 0, retry_count := 1,
    max_retries := 3, status := SyncStatus.synced }

def c4State : DBState := { queue := [c4Row], nextId := 2, is_offline_mode := false }

/-- C4 witness: a concrete synced row survives a dispatch tick (with a
failing session) untouched. -/
theorem c4_terminal_states_immutable_witness :
    c4Row ∈ (syncTick (fun _ => false) c4State).queue :=
  c4_terminal_states_immutable.1 c4State (syncTick (fun _ => false) c4State)
    ⟨by decide, by decide⟩
    (ReachFrom.step (ReachFrom.refl c4State) (StepFrom.tick c4State (fun _ => false)))
    c4Row (by decide) (Or.inl rfl)

/-! ### C5 -/

def c5Pay : Payload := { priority := 0, blob := "dup" }

def c5S1 : DBState :=
  (queueSyncOperation false (fun _ => true) "offline_users" "INSERT" "u1" c5Pay 0 initState).1

def c5S2 : DBState :=
  (queueSyncOperation false (fun _ => true) "offline_users" "INSERT" "u1" c5Pay 1 c5S1).1

/-- C5 counterexample.  Two enqueues of the very same logical operation
(same table, operation kind, record id and payload — i.e. the same
idempotency intent): the engine creates two independent rows, each dispatch
performs its own successful `_execute_sync_operation`, and both rows end
`synced` — there is no idempotency key, no deduplication and no
`SKIP_ALREADY_APPLIED` path anywhere in the code. -/
theorem c5_duplicate_intent_double_apply_cex :
    c5S2.queue =
      [{ newRow "offline_users" "INSERT" "u1" c5Pay 0 1 with status := SyncStatus.synced },
        { newRow "offline_users" "INSERT" "u1" c5Pay 1 2 with status := SyncStatus.synced }] ∧
      successfulApplies true (enqueueRow "offline_users" "INSERT" "u1" c5Pay 0 initState) = 1 ∧
      successfulApplies true (enqueueRow "offline_users" "INSERT" "u1" c5Pay 1 c5S1) = 1 := by
  refine ⟨rfl, rfl, rfl⟩

/-- C5 amended.  Enqueueing a duplicate of an already-applied operation
always creates a fresh row that is itself independently applied and marked
`synced` (no dedup in `queue_sync_operation`), and
`queue_for_publishing` likewise always appends a fresh item with a new id
regardless of identical items already queued. -/
theorem c5_no_idempotency_dedup :
    (∀ (st : DBState) (tn op rid : String) (d : Payload) (now : Nat),
      st.is_offline_mode = false → (st.queue.map SyncRow.id).Nodup →
      (∀ r ∈ st.queue, r.id < st.nextId) →
      { newRow tn op rid d now st.nextId with status := SyncStatus.synced }
        ∈ (queueSyncOperation false (fun _ => true) tn op rid d now st).1.queue) ∧
      ∀ (id : String) (now : Nat) (user post : String) (file : SocialFile),
        (queueForPublishing id now user post file).lookup user
          = some (((file.lookup user).getD []) ++ [⟨id, post, now, 0, 3⟩]) := by
  constructor
  · intro st tn op rid d now hoff hnd hbound
    have hinv1 : Inv (enqueueRow tn op rid d now st) := inv_enqueueRow ⟨hnd, hbound⟩
    have hoff1 : (enqueueRow tn op rid d now st).is_offline_mode = false := hoff
    have hstep : (queueSyncOperation false (fun _ => true) tn op rid d now st).1
        = syncTick (fun _ => true) (enqueueRow tn op rid d now st) := by
      unfold queueSyncOperation
      rw [if_neg (by decide)]
      dsimp only
      rw [if_neg (by rw [hoff1]; exact Bool.false_ne_true)]
    rw [hstep, syncTick_queue_eq _ _ hoff1 hinv1.1]
    have hmem : newRow tn op rid d now st.nextId ∈ (enqueueRow tn op rid d now st).queue :=
      List.mem_append_right _ (List.mem_singleton_self _)
    have himg : tickRowResult (fun _ => true) (newRow tn op rid d now st.nextId)
        = { newRow tn op rid d now st.nextId with status := SyncStatus.synced } := rfl
    exact himg ▸ List.mem_map_of_mem _ hmem
  · intro id now user post file
    unfold queueForPublishing
    exact saveQueue_lookup user _ file

/-- C5 amended, witness: the second duplicate enqueue of the
counterexample scenario, obtained by applying the amended theorem at the
state already holding the first (synced) copy. -/
theorem c5_no_idempotency_dedup_witness :
    { newRow "offline_users" "INSERT" "u1" c5Pay 1 2 with status := SyncStatus.synced }
      ∈ (queueSyncOperation false (fun _ => true) "offline_users" "INSERT" "u1" c5Pay 1
          c5S1).1.queue :=
  c5_no_idempotency_dedup.1 c5S1 "offline_users" "INSERT" "u1" c5Pay 1 rfl
    (by decide) (by decide)

/-! ### C6 -/

def omInitState : OMState := { mem := [], dbq := [] }

/-- C6 counterexample.  It is not the case that an enqueue whose durable
INSERT fails surfaces an error: `OfflineManager.queue_action` catches the
exception, logs it, and completes normally (`none` error), leaving the
action only in the volatile in-memory queue. -/
theorem c6_swallowed_storage_failure_cex :
    ¬ ∀ (a d : String) (st : OMState), ((queueAction true a d st).2).isSome = true := by
  intro h
  have hc := h "create_post" "x" omInitState
  simp [queueAction] at hc

/-- C6 amended.  On a storage failure during enqueue,
`DatabaseManager.queue_sync_operation` does surface the failure — but only
as a `False` return value, never as a raised error, and with nothing
persisted; `OfflineManager.queue_action` surfaces nothing at all: it
completes normally, the entry is appended to the in-memory queue only and
the durable table is left unchanged. -/
theorem c6_storage_failure_semantics :
    (∀ (a d : String) (st : OMState),
      queueAction true a d st = ({ st with mem := st.mem ++ [(a, d)] }, none)) ∧
      ∀ (ok : SyncRow → Bool) (tn op rid : String) (d : Payload) (now : Nat) (st : DBState),
        queueSyncOperation true ok tn op rid d now st = (st, false) :=
  ⟨fun _ _ _ => rfl, fun _ _ _ _ _ _ _ => rfl⟩

/-! ### C7 -/

/-- The property C7 claims of every cache write: afterwards the key is
present in the local fallback store. -/
def cacheWriteLocallyDurable : Prop :=
  ∀ (redisOk localOk : Bool) (k v : String) (ttl now : Nat) (st : CacheState),
    ((cacheSet redisOk localOk k v ttl now st).1.localStore.lookup k).isSome = true

def c7St : CacheState := { redisConfigured := true, remote := [], localStore := [] }

/-- C7 counterexample.  With a remote client configured and the remote cache
unreachable (`setex` raises), `cache_set` returns `False` and writes
nothing at all: the key is absent from the local store, so the write is
lost — the local store is not written first (or ever, while a remote client
exists). -/
theorem c7_remote_first_cex : ¬ cacheWriteLocallyDurable := by
  intro h
  have hc := h false true "k" "v" 60 0 c7St
  simp [cacheSet, c7St, List.lookup] at hc

/-- C7 amended.  `cache_set` is remote-first, not local-first: whenever a
remote client is configured the local store is never touched (and a failed
remote write just returns `False`, losing the write); only when no remote
client is configured does the write go to the local fallback store via
`_offline_cache_set`. -/
theorem c7_cache_write_path :
    (∀ (redisOk localOk : Bool) (k v : String) (ttl now : Nat) (st : CacheState),
      st.redisConfigured = true →
        (cacheSet redisOk localOk k v ttl now st).1.localStore = st.localStore ∧
          (redisOk = false → cacheSet redisOk localOk k v ttl now st = (st, false))) ∧
      ∀ (redisOk localOk : Bool) (k v : String) (ttl now : Nat) (st : CacheState),
        st.redisConfigured = false →
          cacheSet redisOk localOk k v ttl now st = offlineCacheSet localOk k v ttl now st := by
  constructor
  · intro redisOk localOk k v ttl now st hconf
    unfold cacheSet
    rw [hconf]
    constructor
    · cases redisOk <;> simp
    · intro hro
      rw [hro]
      simp
  · intro redisOk localOk k v ttl now st hconf
    unfold cacheSet
    rw [hconf]
    simp

/-- C7 amended, witness: a successful remote write on a configured client
leaves the (empty) local store empty. -/
theorem c7_cache_write_path_witness :
    (cacheSet true true "k" "v" 60 0 c7St).1.localStore = [] :=
  (c7_cache_write_path.1 true true "k" "v" 60 0 c7St rfl).1

/-! ### C8 -/

def c8FailState : OMState :=
  { mem := [("create_post", "x")], dbq := [⟨"create_post", "x", 0⟩] }

/-- C8 counterexample.  The queue-draining loop of
`OfflineManager.process_queue` does not terminate for a finite queue whose
remote application fails persistently: a failed action is re-appended to
the deque with no bound check (`attempts` is incremented but never
consulted), so a single persistently-failing action cycles forever. -/
theorem c8_persistent_failure_nontermination_cex :
    ¬ pqTerminates (fun _ _ => false) c8FailState := by
  rintro ⟨fuel, h⟩
  have hnone : processQueueFuel (fun _ _ => false) fuel c8FailState = none :=
    fail_exec_stuck "create_post" "x" fuel [⟨"create_post", "x", 0⟩]
  rw [hnone] at h
  simp at h

def c8DbRow : SyncRow :=
  { id := 1, table_name := "offline_content", operation := "INSERT", record_id := "c1",
    data := { priority := 0, blob := "x" }, created_at := 0, retry_count := 0,
    max_retries := 3, status := SyncStatus.pending }

def c8DbState : DBState := { queue := [c8DbRow], nextId := 2, is_offline_mode := false }

/-- C8 amended.  With the code's `_execute_action` (the placeholder that
always succeeds), `process_queue` terminates within one iteration per entry
and drains the whole queue; and in the database sync queue a dispatch pass
with a working session moves every eligible pending entry to the terminal
`synced` status in that same pass.  Under a persistently failing remote
apply, however, the `process_queue` loop never terminates (see the
counterexample), and nothing schedules further `_process_sync_queue` runs,
so no time bound of the form maxAttempts x maxDelay exists. -/
theorem c8_liveness_amended :
    (∀ st : OMState, ∃ dbq2 : List OMRow,
      processQueueFuel executeAction st.mem.length st = some ⟨[], dbq2⟩) ∧
      ∀ st : DBState, st.is_offline_mode = false → (st.queue.map SyncRow.id).Nodup →
        ∀ r ∈ st.queue, eligible r = true →
          { r with status := SyncStatus.synced } ∈ (syncTick (fun _ => true) st).queue := by
  constructor
  · intro st
    obtain ⟨mem, dbq⟩ := st
    exact drain_true_exec mem dbq
  · intro st hoff hnd r hr he
    rw [syncTick_queue_eq _ st hoff hnd]
    have himg : tickRowResult (fun _ => true) r = { r with status := SyncStatus.synced } := by
      unfold tickRowResult
      rw [if_pos he]
      rfl
    exact himg ▸ List.mem_map_of_mem _ hr

/-- C8 amended, witness: the single pending entry of a concrete one-row
state is synced by one dispatch pass with a working session. -/
theorem c8_liveness_amended_witness :
    { c8DbRow with status := SyncStatus.synced } ∈ (syncTick (fun _ => true) c8DbState).queue :=
  c8_liveness_amended.2 c8DbState rfl (by decide) c8DbRow (by decide) (by decide)

/-! ### C9 -/

/-- C9 (confirmed).  `_execute_sync_operation` performs no remote operation
for any operation kind — whenever a session opens it returns the main
database unchanged (`some m` for every `m`), and a whole batch leaves the
main database unchanged — and consequently a `_process_sync_queue` pass
with a working session marks every pending entry with remaining retry
budget as `synced` although nothing was applied remotely. -/
theorem c9_noop_sync_marks_synced :
    (∀ (α : Type) (r : SyncRow) (m : α), executeSyncOperation true r m = some m) ∧
      (∀ (α : Type) (sessionOk : Bool) (batch : List SyncRow) (m : α),
        tickRemote sessionOk batch m = m) ∧
      ∀ st : DBState, st.is_offline_mode = false → (st.queue.map SyncRow.id).Nodup →
        (syncTick (fun _ => true) st).queue
          = st.queue.map fun r =>
              if eligible r = true then { r with status := SyncStatus.synced } else r := by
  refine ⟨exec_true_noop, tickRemote_id, ?_⟩
  intro st hoff hnd
  rw [syncTick_queue_eq _ st hoff hnd]
  apply List.map_congr_left
  intro x _
  unfold tickRowResult
  by_cases he : eligible x = true
  · rw [if_pos he, if_pos he]
    rfl
  · rw [if_neg he, if_neg he]

def c9Row : SyncRow :=
  { id := 1, table_name := "offline_content", operation := "UPDATE", record_id := "c1",
    data := { priority := 0, blob := "x" }, created_at := 0, retry_count := 1,
    max_retries := 3, status := SyncStatus.pending }

def c9State : DBState := { queue := [c9Row], nextId := 2, is_offline_mode := false }

/-- C9 witness: a concrete pending row with remaining budget is marked
`synced` by one pass with a working session. -/
theorem c9_noop_sync_marks_synced_witness :
    (syncTick (fun _ => true) c9State).queue = [{ c9Row with status := SyncStatus.synced }] := by
  have h := c9_noop_sync_marks_synced.2.2 c9State rfl (by decide)
  rw [h]
  rfl

/-! ### C10 -/

/-- C10 (confirmed).  Every call of `process_offline_queue` — for any publish
behavior, any queue file and any user — reads the unbound local
`updated_queue`, so the call always ends in the `NameError` caught by the
outer handler: it returns the error dictionary and the persisted queue file
is returned exactly as loaded, never rewritten, so successfully published
posts stay queued and are re-published by every later call. -/
theorem c10_offline_queue_never_rewritten :
    ∀ (publish : String → POutcome) (file : SocialFile) (user : String),
      processOfflineQueue publish file user = (errorResult nameErrorMsg, file) := by
  intro publish file user
  unfold processOfflineQueue
  cases hrun : runLoop publish ((file.lookup user).getD [])
      { uq := none, processed := 0, failed := 0 } with
  | nameErrorEscape s => rfl
  | finished s =>
    have hnone : s.uq = none := runLoop_uq_none publish _ _ rfl s hrun
    dsimp only
    rw [hnone]

end MPX
